import Mathlib

/-!
Shallow embedding of the Crowdsense repository's alert-debouncer logic
(src/pi_stream.py, main loop) and of the UI helpers (src/app.py:
`process_frame`, `create_density_bar`, and the display-refresh loops
`show_live` / `show_analysis`), together with proofs of the spec's
testable properties.
-/

namespace Crowdsense

/-- Risk status of a frame. The source displays `Warning` as
"High Density" and `Critical` as "CRITICAL RISK". -/
inductive Status where
  | Normal
  | Warning
  | Critical
  deriving DecidableEq

/-- The display string the source uses for each status
(pi_stream.py lines 93, 98, 107). -/
def display_status : Status → String
  | Status.Normal => "Normal"
  | Status.Warning => "High Density"
  | Status.Critical => "CRITICAL RISK"

/-- The mutable state of the streaming loop: the two globals of
pi_stream.py (lines 47-49). Time is modelled exactly, as a rational. -/
structure DebouncerState where
  consecutive_critical_frames : Nat
  last_alert_time : Rat
  deriving DecidableEq

/-- pi_stream.py line 15. -/
def WARNING_LIMIT : Nat := 30

/-- pi_stream.py line 16. -/
def CRITICAL_LIMIT : Nat := 50

/-- pi_stream.py line 21: `int(FPS_LIMIT * REQUIRED_SECONDS)` = int(15 * 3.0). -/
def BUFFER_SIZE : Nat := 45

/-- The streak update of pi_stream.py lines 86-90: increment
`consecutive_critical_frames` when the count is strictly above the
critical limit, otherwise reset it to 0. -/
def stepCount (cr c count : Nat) : Nat :=
  if cr < count then c + 1 else 0

/-- The status computation of pi_stream.py lines 92-108, as a function of
the configured limits `w` (warning), `cr` (critical), `win` (buffer size),
the streak `c` held before the frame, and the frame's person count.
The status is decided from the updated streak, exactly as in the loop. -/
def statusOf (w cr win c count : Nat) : Status :=
  if win < stepCount cr c count then Status.Critical
  else if w < count then Status.Warning
  else Status.Normal

/-- One iteration of the false-alarm filter of pi_stream.py lines 85-108:
given the frame's person count and the current time `now`, update the
streak, decide the status, and decide whether an alert is emitted
(the rate-limited print at lines 102-104, which also updates
`last_alert_time`). Returns (status, alert emitted?, new state). -/
def step (w cr win : Nat) (cd : Rat) (count : Nat) (now : Rat)
    (s : DebouncerState) : Status × Bool × DebouncerState :=
  if win < stepCount cr s.consecutive_critical_frames count then
    if cd < now - s.last_alert_time then
      (Status.Critical, true,
        ⟨stepCount cr s.consecutive_critical_frames count, now⟩)
    else
      (Status.Critical, false,
        ⟨stepCount cr s.consecutive_critical_frames count, s.last_alert_time⟩)
  else if w < count then
    (Status.Warning, false,
      ⟨stepCount cr s.consecutive_critical_frames count, s.last_alert_time⟩)
  else
    (Status.Normal, false,
      ⟨stepCount cr s.consecutive_critical_frames count, s.last_alert_time⟩)

/-- The per-frame statuses produced by running the loop's status logic
over a list of person counts, starting from streak `c`. -/
def statuses (w cr win c : Nat) : List Nat → List Status
  | [] => []
  | x :: xs => statusOf w cr win c x :: statuses w cr win (stepCount cr c x) xs

/-- The streak after processing a list of counts starting from streak `c`. -/
def runCount (cr c : Nat) (l : List Nat) : Nat :=
  l.foldl (stepCount cr) c

/-- Running the full loop over a list of (person count, current time)
observations, recording each frame's (status, alert?, state-after). -/
def run (w cr win : Nat) (cd : Rat) (s : DebouncerState) :
    List (Nat × Rat) → List (Status × Bool × DebouncerState)
  | [] => []
  | (count, now) :: rest =>
    let r := step w cr win cd count now s
    r :: run w cr win cd r.2.2 rest

/-- The loop state after processing a list of observations. -/
def stateAfter (w cr win : Nat) (cd : Rat) (s : DebouncerState) :
    List (Nat × Rat) → DebouncerState
  | [] => s
  | (count, now) :: rest =>
    stateAfter w cr win cd (step w cr win cd count now s).2.2 rest

-- Basic helper lemmas about `step`.

lemma step_fst (w cr win : Nat) (cd : Rat) (count : Nat) (now : Rat)
    (s : DebouncerState) :
    (step w cr win cd count now s).1
      = statusOf w cr win s.consecutive_critical_frames count := by
  unfold step statusOf
  split_ifs <;> rfl

lemma step_frames (w cr win : Nat) (cd : Rat) (count : Nat) (now : Rat)
    (s : DebouncerState) :
    (step w cr win cd count now s).2.2.consecutive_critical_frames
      = stepCount cr s.consecutive_critical_frames count := by
  unfold step
  split_ifs <;> rfl

lemma step_alert_true (w cr win : Nat) (cd : Rat) (count : Nat) (now : Rat)
    (s : DebouncerState)
    (h : (step w cr win cd count now s).2.1 = true) :
    cd < now - s.last_alert_time ∧
      (step w cr win cd count now s).2.2.last_alert_time = now := by
  unfold step at h ⊢
  split_ifs at h ⊢ <;> simp_all

lemma step_last_or (w cr win : Nat) (cd : Rat) (count : Nat) (now : Rat)
    (s : DebouncerState) :
    (step w cr win cd count now s).2.2.last_alert_time = s.last_alert_time ∨
      (step w cr win cd count now s).2.2.last_alert_time = now := by
  unfold step
  split_ifs <;> simp

/-- C3 -- For every prior state (any streak value, however large) and every
observation at or below the critical threshold, the debouncer step resets
`consecutive_critical_frames` (the spec's consecutive_high_count) to 0. -/
theorem low_count_resets_streak (w cr win : Nat) (cd : Rat) (count : Nat)
    (now : Rat) (s : DebouncerState) (h : count ≤ cr) :
    (step w cr win cd count now s).2.2.consecutive_critical_frames = 0 := by
  rw [step_frames]
  unfold stepCount
  rw [if_neg (Nat.not_lt.mpr h)]

theorem low_count_resets_streak_witness :
    (47 : Nat) ≤ 50 ∧
      (step 30 50 45 5 47 9 ⟨100000, 0⟩).2.2.consecutive_critical_frames
        = 0 :=
  ⟨by decide, low_count_resets_streak 30 50 45 5 47 9 ⟨100000, 0⟩ (by decide)⟩

/-- C4 -- For every configuration with warning limit at most critical limit
(as in every configuration in the repository) and every observation at or
below the warning threshold, the step yields status `Normal` and a state
with streak 0, regardless of the prior state. -/
theorem below_warning_is_normal (w cr win : Nat) (cd : Rat) (count : Nat)
    (now : Rat) (s : DebouncerState) (hwc : w ≤ cr) (h : count ≤ w) :
    (step w cr win cd count now s).1 = Status.Normal ∧
      (step w cr win cd count now s).2.2.consecutive_critical_frames = 0 := by
  have h1 : ¬ cr < count := Nat.not_lt.mpr (h.trans hwc)
  have h2 : ¬ w < count := Nat.not_lt.mpr h
  refine ⟨?_, low_count_resets_streak w cr win cd count now s (h.trans hwc)⟩
  rw [step_fst]
  unfold statusOf stepCount
  rw [if_neg h1]
  rw [if_neg (Nat.not_lt_zero win), if_neg h2]

theorem below_warning_is_normal_witness :
    ((30 : Nat) ≤ 50 ∧ (30 : Nat) ≤ 30) ∧
      ((step 30 50 45 5 30 9 ⟨77, 0⟩).1 = Status.Normal ∧
        (step 30 50 45 5 30 9 ⟨77, 0⟩).2.2.consecutive_critical_frames
          = 0) :=
  ⟨⟨by decide, by decide⟩,
    below_warning_is_normal 30 50 45 5 30 9 ⟨77, 0⟩ (by decide) (by decide)⟩

/-- C5 -- For every observation strictly between the warning and critical
thresholds, the step yields status `Warning`, which the source displays
as "High Density". -/
theorem between_limits_is_warning (w cr win : Nat) (cd : Rat) (count : Nat)
    (now : Rat) (s : DebouncerState) (h1 : w < count) (h2 : count < cr) :
    (step w cr win cd count now s).1 = Status.Warning ∧
      display_status Status.Warning = "High Density" := by
  refine ⟨?_, rfl⟩
  rw [step_fst]
  unfold statusOf stepCount
  rw [if_neg (Nat.not_lt.mpr (Nat.le_of_lt h2))]
  rw [if_neg (Nat.not_lt_zero win), if_pos h1]

theorem between_limits_is_warning_witness :
    ((30 : Nat) < 40 ∧ (40 : Nat) < 50) ∧
      ((step 30 50 45 5 40 9 ⟨3, 0⟩).1 = Status.Warning ∧
        display_status Status.Warning = "High Density") :=
  ⟨⟨by decide, by decide⟩,
    between_limits_is_warning 30 50 45 5 40 9 ⟨3, 0⟩ (by decide) (by decide)⟩

/-- C6 -- All threshold comparisons are strict: a count exactly equal to the
critical limit resets the streak and never yields `Critical`, and (given
warning limit at most critical limit, as in every repository
configuration) a count exactly equal to the warning limit yields `Normal`,
not `Warning`. -/
theorem strict_threshold_boundaries (w cr win : Nat) (cd : Rat) (now : Rat)
    (s : DebouncerState) (hwc : w ≤ cr) :
    (step w cr win cd cr now s).2.2.consecutive_critical_frames = 0 ∧
      (step w cr win cd cr now s).1 ≠ Status.Critical ∧
      (step w cr win cd w now s).1 = Status.Normal := by
  refine ⟨low_count_resets_streak w cr win cd cr now s le_rfl, ?_, ?_⟩
  · rw [step_fst]
    unfold statusOf stepCount
    rw [if_neg (lt_irrefl cr)]
    rw [if_neg (Nat.not_lt_zero win)]
    split_ifs <;> simp
  · exact (below_warning_is_normal w cr win cd w now s hwc le_rfl).1

theorem strict_threshold_boundaries_witness :
    (30 : Nat) ≤ 50 ∧
      ((step 30 50 45 5 50 9 ⟨8, 0⟩).2.2.consecutive_critical_frames = 0 ∧
        (step 30 50 45 5 50 9 ⟨8, 0⟩).1 ≠ Status.Critical ∧
        (step 30 50 45 5 30 9 ⟨8, 0⟩).1 = Status.Normal) :=
  ⟨by decide, strict_threshold_boundaries 30 50 45 5 9 ⟨8, 0⟩ (by decide)⟩

-- Lemmas locating the status of the i-th frame and bounding the streak.

lemma statuses_length (w cr win : Nat) :
    ∀ (l : List Nat) (c : Nat), (statuses w cr win c l).length = l.length := by
  intro l
  induction l with
  | nil => intro c; rfl
  | cons x xs ih => intro c; simpa [statuses] using ih (stepCount cr c x)

lemma statuses_getD (w cr win : Nat) :
    ∀ (l : List Nat) (c i : Nat), i < l.length →
      (statuses w cr win c l).getD i Status.Normal
        = statusOf w cr win (runCount cr c (l.take i)) (l.getD i 0) := by
  intro l
  induction l with
  | nil => intro c i hi; exact absurd hi (by simp)
  | cons x xs ih =>
    intro c i hi
    cases i with
    | zero => simp [statuses, runCount]
    | succ i =>
      have hi' : i < xs.length := by simpa using hi
      simpa [statuses, runCount] using ih (stepCount cr c x) i hi'

lemma runCount_zero_le (cr : Nat) (l : List Nat) :
    runCount cr 0 l ≤ l.length := by
  induction l using List.reverseRecOn with
  | nil => simp [runCount]
  | append_singleton xs x ih =>
    have h : runCount cr 0 (xs ++ [x]) = stepCount cr (runCount cr 0 xs) x := by
      simp [runCount, List.foldl_append]
    rw [h]
    unfold stepCount
    split_ifs <;> simp <;> omega

lemma getD_take_of_lt {α : Type} (l : List α) (d : α) (k j : Nat) (h : j < k) :
    (l.take k).getD j d = l.getD j d := by
  rcases Nat.lt_or_ge j l.length with hj | hj
  · have hjk : j < (l.take k).length := by
      simp [List.length_take]
      omega
    rw [List.getD_eq_getElem l d hj, List.getD_eq_getElem _ d hjk]
    exact List.getElem_take l
  · have h1 : l.length ≤ j := hj
    have h2 : (l.take k).length ≤ j := by
      simp [List.length_take]
      omega
    rw [List.getD_eq_default _ d h1, List.getD_eq_default _ d h2]

lemma runCount_suffix (cr : Nat) :
    ∀ (l : List Nat) (j : Nat), j < l.length →
      l.length ≤ j + runCount cr 0 l → cr < l.getD j 0 := by
  intro l
  induction l using List.reverseRecOn with
  | nil => intro j hj; simp at hj
  | append_singleton xs x ih =>
    intro j hj hlen
    have hrun : runCount cr 0 (xs ++ [x]) = stepCount cr (runCount cr 0 xs) x := by
      simp [runCount, List.foldl_append]
    rw [hrun] at hlen
    unfold stepCount at hlen
    by_cases hx : cr < x
    · rw [if_pos hx] at hlen
      simp only [List.length_append, List.length_singleton] at hj hlen
      rcases Nat.lt_or_ge j xs.length with hjx | hjx
      · have : xs.length ≤ j + runCount cr 0 xs := by omega
        have hres := ih j hjx this
        rw [List.getD_append _ _ _ _ hjx] at *
        exact hres
      · have hjeq : j = xs.length := by omega
        subst hjeq
        have : (xs ++ [x]).getD xs.length 0 = x := by
          rw [List.getD_eq_getElem _ 0 (by simp)]
          simp
        rw [this]
        exact hx
    · rw [if_neg hx] at hlen
      simp only [List.length_append, List.length_singleton] at hj hlen
      omega

/-- C1 -- Starting from streak 0, a frame's status is `Critical` only if at
least `win + 1` observations have been processed so far and the `win + 1`
most recent observations (the current one included) are all strictly above
the critical limit. -/
theorem critical_requires_persistence (w cr win : Nat) (l : List Nat)
    (i : Nat) (hi : i < l.length)
    (hcrit : (statuses w cr win 0 l).getD i Status.Normal = Status.Critical) :
    win ≤ i ∧ ∀ j, j < l.length → i ≤ j + win → j ≤ i → cr < l.getD j 0 := by
  rw [statuses_getD w cr win l 0 i hi] at hcrit
  have hwin : win < stepCount cr (runCount cr 0 (l.take i)) (l.getD i 0) := by
    by_contra hno
    unfold statusOf at hcrit
    rw [if_neg hno] at hcrit
    split_ifs at hcrit
  have htake : l.take (i + 1) = l.take i ++ [l.getD i 0] := by
    rw [List.take_succ]
    congr 1
    rw [List.getElem?_eq_getElem hi, List.getD_eq_getElem l 0 hi]
    rfl
  have hstep : runCount cr 0 (l.take (i + 1))
      = stepCount cr (runCount cr 0 (l.take i)) (l.getD i 0) := by
    rw [htake]
    simp [runCount, List.foldl_append]
  have hwin' : win < runCount cr 0 (l.take (i + 1)) := by
    rw [hstep]; exact hwin
  have hlen : (l.take (i + 1)).length = i + 1 := by
    simp [List.length_take]
    omega
  have hle : runCount cr 0 (l.take (i + 1)) ≤ i + 1 := by
    have := runCount_zero_le cr (l.take (i + 1))
    omega
  refine ⟨by omega, ?_⟩
  intro j hjl hjw hji
  have hjtake : j < (l.take (i + 1)).length := by omega
  have hcond : (l.take (i + 1)).length ≤ j + runCount cr 0 (l.take (i + 1)) := by
    omega
  have := runCount_suffix cr (l.take (i + 1)) j hjtake hcond
  rwa [getD_take_of_lt l 0 (i + 1) j (by omega)] at this

theorem critical_requires_persistence_witness :
    (3 : Nat) ≤ 3 ∧ (25 : Nat) < List.getD [30, 30, 30, 30] 0 0 := by
  have h := critical_requires_persistence 20 25 3 [30, 30, 30, 30] 3
    (by decide) (by decide)
  exact ⟨h.1, h.2 0 (by decide) (by decide) (by decide)⟩

/-- C2 -- With warning threshold 20, critical threshold 25, persistence
window 3 and initial streak 0, the counts [30,30,30,30,10,30,30,30,30]
produce exactly the statuses
[Warning,Warning,Warning,Critical,Normal,Warning,Warning,Warning,Critical]. -/
theorem scenario_statuses :
    statuses 20 25 3 0 [30, 30, 30, 30, 10, 30, 30, 30, 30] =
      [Status.Warning, Status.Warning, Status.Warning, Status.Critical,
        Status.Normal, Status.Warning, Status.Warning, Status.Warning,
        Status.Critical] := by
  decide

/-- C8 -- The debouncer step is deterministic and pure: two invocations on
the same count, the same current time and the same state produce
identical (status, alert decision, successor state) results; the step is
a function of exactly these inputs (the globals of the source are the
explicit `DebouncerState`). -/
theorem step_deterministic (w cr win : Nat) (cd : Rat) (c1 c2 : Nat)
    (t1 t2 : Rat) (s1 s2 : DebouncerState)
    (hc : c1 = c2) (ht : t1 = t2) (hs : s1 = s2) :
    step w cr win cd c1 t1 s1 = step w cr win cd c2 t2 s2 := by
  rw [hc, ht, hs]

theorem step_deterministic_witness :
    ((51 : Nat) = 51 ∧ (7 : Rat) = 7 ∧
        (⟨2, 1⟩ : DebouncerState) = ⟨2, 1⟩) ∧
      step 30 50 45 5 51 7 ⟨2, 1⟩ = step 30 50 45 5 51 7 ⟨2, 1⟩ :=
  ⟨⟨rfl, rfl, rfl⟩, step_deterministic 30 50 45 5 51 51 7 7 ⟨2, 1⟩ ⟨2, 1⟩ rfl rfl rfl⟩

-- Machinery for the alert-cooldown property: locating a frame of `run`
-- and tracking `last_alert_time` across a run.

/-- Default observation used with `List.getD` on observation lists. -/
def obsDefault : Nat × Rat := (0, 0)

/-- Default output used with `List.getD` on `run` outputs. -/
def outDefault : Status × Bool × DebouncerState := (Status.Normal, false, ⟨0, 0⟩)

lemma run_length (w cr win : Nat) (cd : Rat) :
    ∀ (l : List (Nat × Rat)) (s : DebouncerState),
      (run w cr win cd s l).length = l.length := by
  intro l
  induction l with
  | nil => intro s; rfl
  | cons x rest ih =>
    intro s
    obtain ⟨count, now⟩ := x
    simpa [run] using ih (step w cr win cd count now s).2.2

lemma run_getD (w cr win : Nat) (cd : Rat) :
    ∀ (l : List (Nat × Rat)) (s : DebouncerState) (j : Nat), j < l.length →
      (run w cr win cd s l).getD j outDefault
        = step w cr win cd (l.getD j obsDefault).1 (l.getD j obsDefault).2
            (stateAfter w cr win cd s (l.take j)) := by
  intro l
  induction l with
  | nil => intro s j hj; exact absurd hj (by simp)
  | cons x rest ih =>
    intro s j hj
    obtain ⟨count, now⟩ := x
    cases j with
    | zero => simp [run, stateAfter]
    | succ j =>
      have hj' : j < rest.length := by simpa using hj
      simpa [run, stateAfter] using ih (step w cr win cd count now s).2.2 j hj'

lemma run_take (w cr win : Nat) (cd : Rat) :
    ∀ (l : List (Nat × Rat)) (s : DebouncerState) (j : Nat),
      run w cr win cd s (l.take j) = (run w cr win cd s l).take j := by
  intro l
  induction l with
  | nil => intro s j; simp [run]
  | cons x rest ih =>
    intro s j
    obtain ⟨count, now⟩ := x
    cases j with
    | zero => rfl
    | succ j => simp [run, ih (step w cr win cd count now s).2.2 j]

lemma stateAfter_last_ge (w cr win : Nat) (cd : Rat) :
    ∀ (l : List (Nat × Rat)) (s : DebouncerState) (x : Rat),
      x ≤ s.last_alert_time → (∀ t ∈ l.map Prod.snd, x ≤ t) →
      x ≤ (stateAfter w cr win cd s l).last_alert_time := by
  intro l
  induction l with
  | nil => intro s x hx _; exact hx
  | cons y rest ih =>
    intro s x hx hall
    obtain ⟨count, now⟩ := y
    have hx' : x ≤ (step w cr win cd count now s).2.2.last_alert_time := by
      rcases step_last_or w cr win cd count now s with h | h
      · rw [h]; exact hx
      · rw [h]; exact hall now (by simp)
    exact ih (step w cr win cd count now s).2.2 x hx'
      (fun t ht => hall t (by simp [ht]))

lemma alert_time_le_stateAfter (w cr win : Nat) (cd : Rat) :
    ∀ (l : List (Nat × Rat)) (s : DebouncerState) (i : Nat), i < l.length →
      List.Pairwise (fun a b => a ≤ b) (l.map Prod.snd) →
      ((run w cr win cd s l).getD i outDefault).2.1 = true →
      (l.getD i obsDefault).2
        ≤ (stateAfter w cr win cd s l).last_alert_time := by
  intro l
  induction l with
  | nil => intro s i hi; exact absurd hi (by simp)
  | cons y rest ih =>
    intro s i hi hmono halert
    obtain ⟨count, now⟩ := y
    rw [List.map_cons] at hmono
    have hmono' := List.pairwise_cons.mp hmono
    cases i with
    | zero =>
      have h0 : ((run w cr win cd s ((count, now) :: rest)).getD 0 outDefault)
          = step w cr win cd count now s := rfl
      rw [h0] at halert
      have hset := (step_alert_true w cr win cd count now s halert).2
      have : (stateAfter w cr win cd s ((count, now) :: rest))
          = stateAfter w cr win cd (step w cr win cd count now s).2.2 rest := rfl
      rw [this]
      exact stateAfter_last_ge w cr win cd rest _ now (le_of_eq hset.symm)
        (fun t ht => hmono'.1 t ht)
    | succ i =>
      have hi' : i < rest.length := by simpa using hi
      have halert' : ((run w cr win cd (step w cr win cd count now s).2.2
          rest).getD i outDefault).2.1 = true := by
        simpa [run] using halert
      simpa using ih (step w cr win cd count now s).2.2 i hi' hmono'.2 halert'

/-- C7 -- Alerts are rate limited: in any run with nondecreasing
observation times, any two frames that both emit an alert are more than
`cd` (the cooldown) apart in time — so at most one alert falls in any
cooldown window, even while the status stays Critical; moreover an alert
is emitted at a frame only if the elapsed time since `last_alert_time`
exceeds the cooldown, and emitting sets `last_alert_time` to the current
time. -/
theorem alert_cooldown_rate_limit (w cr win : Nat) (cd : Rat)
    (s0 : DebouncerState) (l : List (Nat × Rat)) (i j : Nat)
    (hi : i < l.length) (hj : j < l.length) (hij : i < j)
    (hmono : List.Pairwise (fun a b => a ≤ b) (l.map Prod.snd))
    (hai : ((run w cr win cd s0 l).getD i outDefault).2.1 = true)
    (haj : ((run w cr win cd s0 l).getD j outDefault).2.1 = true) :
    cd < (l.getD j obsDefault).2 - (l.getD i obsDefault).2 ∧
      ∀ count now s, (step w cr win cd count now s).2.1 = true →
        cd < now - s.last_alert_time ∧
          (step w cr win cd count now s).2.2.last_alert_time = now := by
  refine ⟨?_, fun count now s h => step_alert_true w cr win cd count now s h⟩
  rw [run_getD w cr win cd l s0 j hj] at haj
  have hloc := step_alert_true w cr win cd _ _ _ haj
  have hitake : ((run w cr win cd s0 (l.take j)).getD i outDefault).2.1
      = true := by
    rw [run_take w cr win cd l s0 j, getD_take_of_lt _ outDefault j i hij]
    exact hai
  have hmono' : List.Pairwise (fun a b => a ≤ b)
      ((l.take j).map Prod.snd) := by
    rw [List.map_take]
    exact List.Pairwise.sublist (List.take_sublist j (l.map Prod.snd)) hmono
  have hile : i < (l.take j).length := by
    rw [List.length_take]
    omega
  have hkey := alert_time_le_stateAfter w cr win cd (l.take j) s0 i hile
    hmono' hitake
  rw [getD_take_of_lt _ obsDefault j i hij] at hkey
  have h1 := hloc.1
  linarith

theorem alert_cooldown_rate_limit_witness :
    (5 : Rat) < (List.getD [((60 : Nat), (10 : Rat)), (60, 20)] 1 obsDefault).2
        - (List.getD [((60 : Nat), (10 : Rat)), (60, 20)] 0 obsDefault).2 ∧
      (step 30 50 0 5 60 10 ⟨0, 0⟩).2.2.last_alert_time = 10 := by
  have hs1 : step 30 50 0 5 60 10 ⟨0, 0⟩
      = (Status.Critical, true, ⟨1, 10⟩) := by
    norm_num [step, stepCount]
  have hs2 : step 30 50 0 5 60 20 ⟨1, 10⟩
      = (Status.Critical, true, ⟨2, 20⟩) := by
    norm_num [step, stepCount]
  have hrun : run 30 50 0 5 ⟨0, 0⟩ [(60, 10), (60, 20)]
      = [(Status.Critical, true, ⟨1, 10⟩), (Status.Critical, true, ⟨2, 20⟩)] := by
    simp [run, hs1, hs2]
  have h := alert_cooldown_rate_limit 30 50 0 5 ⟨0, 0⟩ [(60, 10), (60, 20)]
    0 1 (by decide) (by decide) (by decide)
    (by simp <;> norm_num)
    (by simp [hrun, outDefault])
    (by simp [hrun, outDefault])
  exact ⟨h.1, (h.2 60 10 ⟨0, 0⟩ (by rw [hs1])).2⟩

-- app.py: `create_density_bar`, `process_frame` status logic, and the
-- display-refresh pattern of the UI loops.

/-- The number of filled cells of the density bar, app.py lines 127-133:
`int(bar_length * percentage)` with `percentage = min(count / max_capacity,
1.0)`, `bar_length = 10`, `max_capacity = 100`; the source's real
arithmetic is modelled exactly over the rationals, and Python `int()`
truncation on a non-negative value is the floor. -/
def density_filled (count : Nat) : Nat :=
  Nat.floor ((10 : Rat) * min ((count : Rat) / 100) 1)

/-- The bar portion of `create_density_bar` (app.py line 134):
filled cells followed by empty cells. -/
def density_bar_cells (count : Nat) : List Char :=
  List.replicate (density_filled count) '█'
    ++ List.replicate (10 - density_filled count) '░'

/-- app.py line 137: the returned string. -/
def create_density_bar (count : Nat) : String :=
  toString count ++ " People detected &nbsp; "
    ++ String.mk (density_bar_cells count)

lemma density_filled_eq (count : Nat) :
    density_filled count = min (count / 10) 10 := by
  unfold density_filled
  rcases le_or_lt count 100 with h | h
  · have h1 : ((count : Rat) / 100) ≤ 1 := by
      rw [div_le_one (by norm_num)]
      exact_mod_cast h
    rw [min_eq_left h1]
    have h2 : (10 : Rat) * ((count : Rat) / 100) = (count : Rat) / ((10 : Nat) : Rat) := by
      push_cast
      ring
    rw [h2, Nat.floor_div_nat, Nat.floor_natCast]
    have h3 : count / 10 ≤ 10 := by omega
    rw [min_eq_left h3]
  · have h1 : (1 : Rat) ≤ (count : Rat) / 100 := by
      rw [le_div_iff₀ (by norm_num)]
      have : (100 : Rat) < (count : Rat) := by exact_mod_cast h
      linarith
    rw [min_eq_right h1, mul_one]
    have h2 : 10 ≤ count / 10 := by omega
    rw [min_eq_right h2]
    norm_num

/-- C9 -- For every count, the density bar has exactly 10 cells: the filled
and empty cells sum to 10, the number of filled cells is
⌊10 * min(count/100, 1)⌋ (equivalently min(count/10, 10)), and for every
count ≥ 100 the bar is fully filled. -/
theorem density_bar_ten_cells (count : Nat) :
    (density_bar_cells count).length = 10 ∧
      (density_bar_cells count).count '█'
        + (density_bar_cells count).count '░' = 10 ∧
      density_filled count = Nat.floor ((10 : Rat) * min ((count : Rat) / 100) 1) ∧
      density_filled count = min (count / 10) 10 ∧
      (100 ≤ count → density_filled count = 10) := by
  have hle : density_filled count ≤ 10 := by
    rw [density_filled_eq]
    omega
  refine ⟨?_, ?_, rfl, density_filled_eq count, ?_⟩
  · unfold density_bar_cells
    rw [List.length_append, List.length_replicate, List.length_replicate]
    omega
  · simp [density_bar_cells, List.count_append, List.count_replicate]
    omega
  · intro h
    rw [density_filled_eq]
    have : count / 10 ≥ 10 := by omega
    omega

theorem density_bar_ten_cells_witness :
    (100 : Nat) ≤ 150 ∧ density_filled 150 = 10 :=
  ⟨by decide, (density_bar_ten_cells 150).2.2.2.2 (by decide)⟩

/-- The stateless per-frame classifier of app.py `process_frame`
(lines 159-167): (status text, CSS class) from the person count, with the
hardcoded limits 20 and 25. -/
def process_frame_status (total_persons : Nat) : String × String :=
  if 25 < total_persons then ("CRITICAL RISK", "status-critical")
  else if 20 < total_persons then ("High Density", "status-warning")
  else ("Normal", "status-normal")

/-- The three displayed values of the UI loops of app.py (`show_live` and
`show_analysis`): status line, density bar, CSS class. -/
structure DisplayState where
  display_status : String
  display_density : String
  display_css : String
  deriving DecidableEq

/-- The initial display values (app.py lines 220-222 and 268-270). -/
def initialDisplay : DisplayState :=
  ⟨"Initializing...", "0 People ░░░░░░░░░░", "status-normal"⟩

/-- Refreshing the display from the current frame (app.py lines 233-236
and 279-282): status and CSS class from `process_frame`, density bar from
`create_density_bar`. -/
def refreshDisplay (count : Nat) : DisplayState :=
  ⟨(process_frame_status count).1, create_density_bar count,
    (process_frame_status count).2⟩

/-- The display after `n` frames of the UI loop over the per-frame person
counts: `frame_count` is incremented every frame and the three displayed
values are refreshed only when it is a multiple of 10 (app.py lines
232-236 and 278-282). -/
def displayAfter (d0 : DisplayState) (counts : List Nat) : Nat → DisplayState
  | 0 => d0
  | n + 1 =>
    if (n + 1) % 10 = 0 then refreshDisplay (counts.getD n 0)
    else displayAfter d0 counts n

lemma displayAfter_closed (d0 : DisplayState) (counts : List Nat) :
    ∀ n, displayAfter d0 counts n
      = if n < 10 then d0
        else refreshDisplay (counts.getD (10 * (n / 10) - 1) 0) := by
  intro n
  induction n with
  | zero => simp [displayAfter]
  | succ n ih =>
    by_cases h : (n + 1) % 10 = 0
    · have h10 : 10 ∣ (n + 1) := Nat.dvd_of_mod_eq_zero h
      have hge : 10 ≤ n + 1 := Nat.le_of_dvd (by omega) h10
      rw [displayAfter, if_pos h, if_neg (by omega)]
      congr 2
      omega
    · rw [displayAfter, if_neg h, ih]
      by_cases h1 : n + 1 < 10
      · rw [if_pos (by omega), if_pos h1]
      · rw [if_neg (by omega), if_neg h1]
        congr 3
        omega

/-- C10 -- In the UI loops, the displayed status, density bar and CSS class
are refreshed only on frames whose 1-based index is a multiple of 10; on
every other frame all three displayed values are unchanged from the
previous frame, and after any number of frames the display shows the
values of frame 10*(n/10) — at most 9 frames behind — or the initial
values when fewer than 10 frames have been processed. -/
theorem display_refresh_every_ten (d0 : DisplayState) (counts : List Nat)
    (n : Nat) :
    ((n + 1) % 10 ≠ 0 →
        displayAfter d0 counts (n + 1) = displayAfter d0 counts n) ∧
      ((n + 1) % 10 = 0 →
        displayAfter d0 counts (n + 1) = refreshDisplay (counts.getD n 0)) ∧
      (n < 10 → displayAfter d0 counts n = d0) ∧
      (10 ≤ n → n - 10 * (n / 10) ≤ 9 ∧
        displayAfter d0 counts n
          = refreshDisplay (counts.getD (10 * (n / 10) - 1) 0)) := by
  refine ⟨?_, ?_, ?_, ?_⟩
  · intro h
    rw [displayAfter, if_neg h]
  · intro h
    rw [displayAfter, if_pos h]
  · intro h
    rw [displayAfter_closed, if_pos h]
  · intro h
    exact ⟨by omega, by rw [displayAfter_closed, if_neg (by omega)]⟩

theorem display_refresh_every_ten_witness :
    (displayAfter initialDisplay [3] 13 = displayAfter initialDisplay [3] 12) ∧
      (12 - 10 * (12 / 10) ≤ 9 ∧
        displayAfter initialDisplay [3] 12
          = refreshDisplay (List.getD [3] (10 * (12 / 10) - 1) 0)) :=
  ⟨(display_refresh_every_ten initialDisplay [3] 12).1 (by decide),
    (display_refresh_every_ten initialDisplay [3] 12).2.2.2 (by decide)⟩

end Crowdsense
